import Mathlib

/-!
Verification of the R02 ring protocol scripts.

Shallow embedding of the Python sources:
bytes are `Nat` values (callers only pass values < 256; `% 256` is written
exactly where the source masks), byte strings are `List Nat`, fallible
functions return `Except`, and the BLE notification callbacks are modelled
as explicit state-transition functions.
-/

/-- Error kinds for the fixed 16-byte command protocol.  `payloadTooLarge`
models the failed assert in `make_packet` (payload over 14 bytes);
`invalidLength` and `notBatteryPacket` model the two asserts in
`parse_battery_response`. -/
inductive PacketError where
  | payloadTooLarge
  | invalidLength
  | notBatteryPacket
  deriving DecidableEq, Repr

/-- `battery.py` `BatteryInfo`: battery level and charging flag. -/
structure BatteryInfo where
  level : Nat
  charging : Bool
  deriving DecidableEq, Repr

/-- `battery.py` `CMD_BATTERY = 3`. -/
def CMD_BATTERY : Nat := 3

/-- `set-time.py` `CMD_SET_TIME = 1`. -/
def CMD_SET_TIME : Nat := 1

/-- The 16-byte buffer of `make_packet` just before the checksum byte is
written: `bytearray(16)` zero-filled, `packet[0] = command`,
`packet[i+1] = sub_data[i]` for each payload byte, byte 15 still zero. -/
def packetBase (command : Nat) (subData : List Nat) : List Nat :=
  command :: (subData ++ List.replicate (14 - subData.length) 0) ++ [0]

/-- `make_packet` as in `battery.py` (and identically in `live-hr.py`):
guard `len(sub_data) <= 14`, fill the buffer, then
`packet[-1] = sum(packet) & 255` — the sum is taken over all 16 bytes
while byte 15 still holds zero. -/
def make_packet_battery (command : Nat) (subData : List Nat) :
    Except PacketError (List Nat) :=
  if 14 < subData.length then .error .payloadTooLarge
  else
    let packet := packetBase command subData
    .ok (packet.set 15 (packet.sum % 256))

/-- `make_packet` as in `set-time.py` (and `check-intervals.py`,
`modify-intervals.py`): same buffer, but
`packet[-1] = sum(packet[:-1]) & 0xFF` — the sum of the first 15 bytes. -/
def make_packet_settime (command : Nat) (subData : List Nat) :
    Except PacketError (List Nat) :=
  if 14 < subData.length then .error .payloadTooLarge
  else
    let packet := packetBase command subData
    .ok (packet.set 15 ((packet.take 15).sum % 256))

/-- `battery.py` `parse_battery_response`: asserts a 16-byte frame whose
byte 0 is `CMD_BATTERY`, then reads `level = packet[1]` and
`charging = bool(packet[2])`. -/
def parse_battery_response (packet : List Nat) :
    Except PacketError BatteryInfo :=
  if packet.length ≠ 16 then .error .invalidLength
  else if packet.getD 0 0 ≠ CMD_BATTERY then .error .notBatteryPacket
  else .ok ⟨packet.getD 1 0, packet.getD 2 0 != 0⟩

lemma packetBase_front_length (command : Nat) (subData : List Nat)
    (h : subData.length ≤ 14) :
    (command :: (subData ++ List.replicate (14 - subData.length) 0)).length = 15 := by
  simp [List.length_replicate]
  omega

lemma packetBase_eq (command : Nat) (subData : List Nat) :
    packetBase command subData
      = (command :: (subData ++ List.replicate (14 - subData.length) 0)) ++ [0] := by
  simp [packetBase]

lemma set_last_of_len15 (front : List Nat) (x c : Nat) (h : front.length = 15) :
    (front ++ [x]).set 15 c = front ++ [c] := by
  rw [show (15 : Nat) = front.length from h.symm, List.set_append_right]
  · simp
  · omega

lemma packetBase_set15 (command : Nat) (subData : List Nat)
    (h : subData.length ≤ 14) (c : Nat) :
    (packetBase command subData).set 15 c
      = (command :: (subData ++ List.replicate (14 - subData.length) 0)) ++ [c] := by
  rw [packetBase_eq]
  exact set_last_of_len15 _ _ _ (packetBase_front_length command subData h)

lemma packetBase_take15 (command : Nat) (subData : List Nat)
    (h : subData.length ≤ 14) :
    (packetBase command subData).take 15
      = command :: (subData ++ List.replicate (14 - subData.length) 0) := by
  rw [packetBase_eq,
    show (15 : Nat) = (command :: (subData ++ List.replicate (14 - subData.length) 0)).length
      from (packetBase_front_length command subData h).symm]
  exact List.take_left _ _

lemma packetBase_sum (command : Nat) (subData : List Nat) :
    (packetBase command subData).sum
      = (command :: (subData ++ List.replicate (14 - subData.length) 0)).sum := by
  rw [packetBase_eq]
  simp

lemma padded_getD (payload : List Nat) (c i : Nat)
    (hlen : payload.length ≤ 14) (hi : i < 14) :
    ((payload ++ List.replicate (14 - payload.length) 0) ++ [c]).getD i 0
      = payload.getD i 0 := by
  by_cases hil : i < payload.length
  · simp only [List.getD, List.get?_eq_getElem?]
    rw [List.getElem?_append_left (by simp; omega),
      List.getElem?_append_left hil]
  · have h2 : payload[i]? = none := by
      rw [List.getElem?_eq_none_iff]
      omega
    simp only [List.getD, List.get?_eq_getElem?]
    rw [List.getElem?_append_left (by simp; omega),
      List.getElem?_append_right (by omega)]
    simp [List.getElem?_replicate, h2,
      show i - payload.length < 14 - payload.length by omega]

/-- C10: the two checksum phrasings agree.  `sum(packet) & 255` is taken
while byte 15 is still zero, so it equals `sum(packet[:-1]) & 0xFF`; for
every command and payload of at most 14 bytes both builders return the
same 16-byte packet. -/
theorem make_packet_checksum_variants_agree (command : Nat)
    (payload : List Nat) (h : payload.length ≤ 14) :
    ∃ p, make_packet_battery command payload = .ok p
      ∧ make_packet_settime command payload = .ok p
      ∧ p.length = 16 := by
  have hn : ¬ 14 < payload.length := by omega
  have hsum : (packetBase command payload).sum
      = ((packetBase command payload).take 15).sum := by
    rw [packetBase_sum, packetBase_take15 command payload h]
  refine ⟨(packetBase command payload).set 15
      ((packetBase command payload).sum % 256), ?_, ?_, ?_⟩
  · simp [make_packet_battery, hn]
  · simp [make_packet_settime, hn]
    rw [← hsum]
  · rw [packetBase_set15 command payload h]
    have := packetBase_front_length command payload h
    simp at this ⊢
    omega

/-- Witness for C10 at command 3, payload `[1, 2]`. -/
theorem make_packet_checksum_variants_agree_witness :
    ∃ p, make_packet_battery 3 [1, 2] = .ok p
      ∧ make_packet_settime 3 [1, 2] = .ok p
      ∧ p.length = 16 :=
  make_packet_checksum_variants_agree 3 [1, 2] (by simp)

/-- C7: a payload of 15 or more bytes makes `make_packet` fail with
`PayloadTooLarge` (the failed length assert) in both builder variants,
producing no packet. -/
theorem make_packet_payload_too_large (command : Nat) (payload : List Nat)
    (h : 15 ≤ payload.length) :
    make_packet_battery command payload = .error .payloadTooLarge
      ∧ make_packet_settime command payload = .error .payloadTooLarge := by
  have hn : 14 < payload.length := by omega
  constructor
  · simp [make_packet_battery, hn]
  · simp [make_packet_settime, hn]

/-- Witness for C7 at a 15-byte payload. -/
theorem make_packet_payload_too_large_witness :
    make_packet_battery 7 (List.replicate 15 0) = .error .payloadTooLarge
      ∧ make_packet_settime 7 (List.replicate 15 0) = .error .payloadTooLarge :=
  make_packet_payload_too_large 7 (List.replicate 15 0) (by simp)

/-- C5 counterexample: the repository's only parse function,
`parse_battery_response`, rejects any packet whose command byte is not
`CMD_BATTERY = 3`, so build-then-parse does not return the command and
payload for command byte 5 — it fails. -/
theorem build_parse_roundtrip_cex :
    (make_packet_battery 5 []).bind parse_battery_response
      = .error .notBatteryPacket := rfl

/-- C5 (amended): for every payload of at most 14 bytes, building with
command `CMD_BATTERY` yields a 16-byte packet carrying the command at
byte 0, the payload at bytes 1.., and checksum = sum of the first 15
bytes mod 256; `parse_battery_response` accepts exactly such packets and
recovers byte 1 as `level` and the truthiness of byte 2 as `charging`
(the zero padding standing in for absent payload bytes). -/
theorem build_parse_battery_roundtrip (payload : List Nat)
    (h : payload.length ≤ 14) :
    ∃ p, make_packet_battery CMD_BATTERY payload = .ok p
      ∧ p.length = 16
      ∧ p.getD 0 0 = CMD_BATTERY
      ∧ (p.drop 1).take payload.length = payload
      ∧ p.getD 15 0 = (p.take 15).sum % 256
      ∧ parse_battery_response p
          = .ok ⟨payload.getD 0 0, payload.getD 1 0 != 0⟩ := by
  have hn : ¬ 14 < payload.length := by omega
  have h15 : (CMD_BATTERY
      :: (payload ++ List.replicate (14 - payload.length) 0)).length = 15 :=
    packetBase_front_length CMD_BATTERY payload h
  refine ⟨(CMD_BATTERY :: (payload ++ List.replicate (14 - payload.length) 0))
      ++ [(packetBase CMD_BATTERY payload).sum % 256], ?_, ?_, ?_, ?_, ?_, ?_⟩
  · simp only [make_packet_battery, hn, if_false]
    rw [packetBase_set15 CMD_BATTERY payload h]
  · simp at h15 ⊢
    omega
  · simp [List.getD]
  · rw [List.cons_append, List.drop_one, List.tail_cons, List.append_assoc]
    exact List.take_left payload _
  · have hgd : ((CMD_BATTERY
        :: (payload ++ List.replicate (14 - payload.length) 0))
        ++ [(packetBase CMD_BATTERY payload).sum % 256]).getD 15 0
        = (packetBase CMD_BATTERY payload).sum % 256 := by
      simp only [List.getD, List.get?_eq_getElem?]
      rw [← h15, List.getElem?_append_right (Nat.le_refl _)]
      simp
    rw [hgd, ← h15, List.take_left, packetBase_sum]
  · have hlen : ((CMD_BATTERY
        :: (payload ++ List.replicate (14 - payload.length) 0))
        ++ [(packetBase CMD_BATTERY payload).sum % 256]).length = 16 := by
      simp at h15 ⊢
      omega
    have h1 : ((CMD_BATTERY
        :: (payload ++ List.replicate (14 - payload.length) 0))
        ++ [(packetBase CMD_BATTERY payload).sum % 256]).getD 1 0
        = payload.getD 0 0 := by
      rw [List.cons_append, List.getD_cons_succ]
      exact padded_getD payload _ 0 h (by omega)
    have h2 : ((CMD_BATTERY
        :: (payload ++ List.replicate (14 - payload.length) 0))
        ++ [(packetBase CMD_BATTERY payload).sum % 256]).getD 2 0
        = payload.getD 1 0 := by
      rw [List.cons_append, List.getD_cons_succ]
      exact padded_getD payload _ 1 h (by omega)
    simp only [parse_battery_response, hlen]
    rw [h1, h2]
    simp [List.getD]

/-- Witness for the amended C5 at payload `[42, 1, 9]`. -/
theorem build_parse_battery_roundtrip_witness :
    ∃ p, make_packet_battery CMD_BATTERY [42, 1, 9] = .ok p
      ∧ p.length = 16
      ∧ p.getD 0 0 = CMD_BATTERY
      ∧ (p.drop 1).take 3 = [42, 1, 9]
      ∧ p.getD 15 0 = (p.take 15).sum % 256
      ∧ parse_battery_response p = .ok ⟨42, true⟩ :=
  build_parse_battery_roundtrip [42, 1, 9] (by simp)

/-- One BCD byte as written in `set-time.py` `create_time_packet`:
`(v // 10 << 4) | (v % 10)`. -/
def bcdByte (v : Nat) : Nat := ((v / 10) <<< 4) ||| (v % 10)

/-- The 7-byte time payload of `set-time.py` `create_time_packet`
(lines filling `data` before it is wrapped by `make_packet`): BCD-coded
year-offset-from-2000, month, day, hour, minute, second, then the fixed
language byte 1. -/
def create_time_data (year month day hour minute second : Nat) : List Nat :=
  [bcdByte (year - 2000), bcdByte month, bcdByte day, bcdByte hour,
   bcdByte minute, bcdByte second, 1]

/-- `set-time.py` `create_time_packet`: the 7-byte payload wrapped as a
`CMD_SET_TIME` command packet. -/
def create_time_packet (year month day hour minute second : Nat) :
    Except PacketError (List Nat) :=
  make_packet_settime CMD_SET_TIME
    (create_time_data year month day hour minute second)

lemma bcdByte_nibbles : ∀ v < 100,
    bcdByte v / 16 = v / 10 ∧ bcdByte v % 16 = v % 10 := by decide

/-- C9: for any timestamp with year 2000–2099 and in-range calendar
fields, the 7-byte time payload has, in bytes 0–5, high nibble = tens
digit and low nibble = units digit of year-offset, month, day, hour,
minute, second respectively, and byte 6 is the fixed language flag 1. -/
theorem create_time_data_bcd (year month day hour minute second : Nat)
    (hy1 : 2000 ≤ year) (hy2 : year ≤ 2099)
    (hmo : month ≤ 12) (hd : day ≤ 31) (hh : hour ≤ 23)
    (hmi : minute ≤ 59) (hs : second ≤ 59) :
    (create_time_data year month day hour minute second).length = 7
    ∧ (create_time_data year month day hour minute second).getD 0 0 / 16
        = (year - 2000) / 10
    ∧ (create_time_data year month day hour minute second).getD 0 0 % 16
        = (year - 2000) % 10
    ∧ (create_time_data year month day hour minute second).getD 1 0 / 16
        = month / 10
    ∧ (create_time_data year month day hour minute second).getD 1 0 % 16
        = month % 10
    ∧ (create_time_data year month day hour minute second).getD 2 0 / 16
        = day / 10
    ∧ (create_time_data year month day hour minute second).getD 2 0 % 16
        = day % 10
    ∧ (create_time_data year month day hour minute second).getD 3 0 / 16
        = hour / 10
    ∧ (create_time_data year month day hour minute second).getD 3 0 % 16
        = hour % 10
    ∧ (create_time_data year month day hour minute second).getD 4 0 / 16
        = minute / 10
    ∧ (create_time_data year month day hour minute second).getD 4 0 % 16
        = minute % 10
    ∧ (create_time_data year month day hour minute second).getD 5 0 / 16
        = second / 10
    ∧ (create_time_data year month day hour minute second).getD 5 0 % 16
        = second % 10
    ∧ (create_time_data year month day hour minute second).getD 6 0 = 1 := by
  have hyv := bcdByte_nibbles (year - 2000) (by omega)
  have hmov := bcdByte_nibbles month (by omega)
  have hdv := bcdByte_nibbles day (by omega)
  have hhv := bcdByte_nibbles hour (by omega)
  have hmiv := bcdByte_nibbles minute (by omega)
  have hsv := bcdByte_nibbles second (by omega)
  refine ⟨rfl, ?_, ?_, ?_, ?_, ?_, ?_, ?_, ?_, ?_, ?_, ?_, ?_, rfl⟩ <;>
    simp [create_time_data, List.getD, hyv.1, hyv.2, hmov.1, hmov.2,
      hdv.1, hdv.2, hhv.1, hhv.2, hmiv.1, hmiv.2, hsv.1, hsv.2]

/-- Witness for C9 at 2025-10-12 13:59:07. -/
theorem create_time_data_bcd_witness :
    (create_time_data 2025 10 12 13 59 7).length = 7
    ∧ (create_time_data 2025 10 12 13 59 7).getD 0 0 / 16 = (2025 - 2000) / 10
    ∧ (create_time_data 2025 10 12 13 59 7).getD 0 0 % 16 = (2025 - 2000) % 10
    ∧ (create_time_data 2025 10 12 13 59 7).getD 1 0 / 16 = 10 / 10
    ∧ (create_time_data 2025 10 12 13 59 7).getD 1 0 % 16 = 10 % 10
    ∧ (create_time_data 2025 10 12 13 59 7).getD 2 0 / 16 = 12 / 10
    ∧ (create_time_data 2025 10 12 13 59 7).getD 2 0 % 16 = 12 % 10
    ∧ (create_time_data 2025 10 12 13 59 7).getD 3 0 / 16 = 13 / 10
    ∧ (create_time_data 2025 10 12 13 59 7).getD 3 0 % 16 = 13 % 10
    ∧ (create_time_data 2025 10 12 13 59 7).getD 4 0 / 16 = 59 / 10
    ∧ (create_time_data 2025 10 12 13 59 7).getD 4 0 % 16 = 59 % 10
    ∧ (create_time_data 2025 10 12 13 59 7).getD 5 0 / 16 = 7 / 10
    ∧ (create_time_data 2025 10 12 13 59 7).getD 5 0 % 16 = 7 % 10
    ∧ (create_time_data 2025 10 12 13 59 7).getD 6 0 = 1 :=
  create_time_data_bcd 2025 10 12 13 59 7 (by decide) (by decide) (by decide)
    (by decide) (by decide) (by decide) (by decide)

/-- `check-intervals.py` command ids. -/
def CMD_HEART_RATE_LOG_SETTINGS : Nat := 22

def CMD_BLOOD_OXYGEN : Nat := 44

def CMD_PRESSURE : Nat := 54

def CMD_HRV : Nat := 56

/-- `check-intervals.py` `SensorSettings`. -/
structure SensorSettings where
  enabled : Bool
  interval : Nat
  deriving DecidableEq, Repr

/-- `RingSettingsChecker.notification_handler` as a pure decode step:
given the currently awaited command id and a notification frame, the
settings entry it stores, or `none` when it stores nothing (frame for a
different command, unknown command id, or an index past the frame's end,
which raises inside the `try` and is swallowed by the `except`). -/
def interval_notification_decode (current : Nat) (data : List Nat) :
    Option (String × SensorSettings) :=
  if data.length = 0 then none
  else
    let command := data.getD 0 0
    if command ≠ current then none
    else if command = CMD_HEART_RATE_LOG_SETTINGS then
      if 4 ≤ data.length then
        some ("heart_rate", ⟨data.getD 2 0 == 1, data.getD 3 0⟩)
      else none
    else if command = CMD_BLOOD_OXYGEN then
      if 3 ≤ data.length then
        some ("blood_oxygen", ⟨data.getD 2 0 == 1, 0⟩)
      else none
    else if command = CMD_PRESSURE then
      if 3 ≤ data.length then
        some ("pressure", ⟨data.getD 2 0 == 1, 0⟩)
      else none
    else if command = CMD_HRV then
      if 3 ≤ data.length then
        some ("hrv", ⟨data.getD 2 0 == 1, 0⟩)
      else none
    else none

/-- C8: for a response frame matching the awaited query, the enabled
flag is byte 2 compared against 1, and only the heart-rate query also
decodes an interval, from byte 3 (the other three store interval 0). -/
theorem sensor_settings_decode (data : List Nat) (h4 : 4 ≤ data.length) :
    (data.getD 0 0 = CMD_HEART_RATE_LOG_SETTINGS →
      interval_notification_decode CMD_HEART_RATE_LOG_SETTINGS data
        = some ("heart_rate", ⟨data.getD 2 0 == 1, data.getD 3 0⟩))
    ∧ (data.getD 0 0 = CMD_BLOOD_OXYGEN →
      interval_notification_decode CMD_BLOOD_OXYGEN data
        = some ("blood_oxygen", ⟨data.getD 2 0 == 1, 0⟩))
    ∧ (data.getD 0 0 = CMD_PRESSURE →
      interval_notification_decode CMD_PRESSURE data
        = some ("pressure", ⟨data.getD 2 0 == 1, 0⟩))
    ∧ (data.getD 0 0 = CMD_HRV →
      interval_notification_decode CMD_HRV data
        = some ("hrv", ⟨data.getD 2 0 == 1, 0⟩)) := by
  have hne : ¬ data.length = 0 := by omega
  have h3 : 3 ≤ data.length := by omega
  refine ⟨?_, ?_, ?_, ?_⟩ <;> intro hc <;>
    simp only [CMD_HEART_RATE_LOG_SETTINGS, CMD_BLOOD_OXYGEN, CMD_PRESSURE,
      CMD_HRV, List.getD, List.get?_eq_getElem?] at hc ⊢ <;>
    simp [interval_notification_decode, hne, h3, h4, hc, List.getD,
      CMD_HEART_RATE_LOG_SETTINGS, CMD_BLOOD_OXYGEN, CMD_PRESSURE, CMD_HRV]

/-- Witness for C8 at four concrete response frames. -/
theorem sensor_settings_decode_witness :
    interval_notification_decode 22 [22, 0, 1, 30]
      = some ("heart_rate", ⟨true, 30⟩)
    ∧ interval_notification_decode 44 [44, 0, 0, 0]
      = some ("blood_oxygen", ⟨false, 0⟩)
    ∧ interval_notification_decode 54 [54, 0, 1, 0]
      = some ("pressure", ⟨true, 0⟩)
    ∧ interval_notification_decode 56 [56, 0, 2, 0]
      = some ("hrv", ⟨false, 0⟩) :=
  ⟨(sensor_settings_decode [22, 0, 1, 30] (by simp)).1 rfl,
   (sensor_settings_decode [44, 0, 0, 0] (by simp)).2.1 rfl,
   (sensor_settings_decode [54, 0, 1, 0] (by simp)).2.2.1 rfl,
   (sensor_settings_decode [56, 0, 2, 0] (by simp)).2.2.2 rfl⟩

/-- `sleep.py` `SleepType` (`IntEnum` values 0x00, 0x02, 0x03, 0x04,
0x05, and the -1 `UNKNOWN` member). -/
inductive SleepType where
  | nodata
  | light
  | deep
  | rem
  | awake
  | unknown
  deriving DecidableEq, Repr

/-- `SleepType(raw_type) if raw_type in SleepType._value2member_map_ else
SleepType.UNKNOWN`: a frame byte (0..255) is a member exactly for
0, 2, 3, 4, 5; everything else falls back to `UNKNOWN`. -/
def toSleepType (raw : Nat) : SleepType :=
  if raw = 0 then .nodata
  else if raw = 2 then .light
  else if raw = 3 then .deep
  else if raw = 4 then .rem
  else if raw = 5 then .awake
  else .unknown

/-- `sleep.py` `parse_sleep_records`: walk the bytes two at a time
(`while i < len(data) - 1`), read `(raw_type, duration)` at offsets
`i, i+1`, and append `(sleep_type, duration, start_offset + i)` only when
`duration > 0`.  A trailing lone byte is ignored. -/
def parse_sleep_records : List Nat → Nat → List (SleepType × Nat × Nat)
  | a :: b :: rest, off =>
      (if 0 < b then [(toSleepType a, b, off)] else [])
        ++ parse_sleep_records rest (off + 2)
  | _, _ => []

/-- The `(stage, duration)` projection of the records parsed from a byte
list, independent of the offset bookkeeping. -/
def pairsOf : List Nat → List (SleepType × Nat)
  | a :: b :: rest =>
      (if 0 < b then [(toSleepType a, b)] else []) ++ pairsOf rest
  | _ => []

/-- All consecutive byte pairs of a list (the pairs the parser walks). -/
def chunkPairs : List Nat → List (Nat × Nat)
  | a :: b :: rest => (a, b) :: chunkPairs rest
  | _ => []

/-- Forgetting offsets, `parse_sleep_records` computes `pairsOf`. -/
lemma parse_sleep_records_map_proj (l : List Nat) :
    ∀ off, (parse_sleep_records l off).map (fun r => (r.1, r.2.1))
      = pairsOf l := by
  induction l using pairsOf.induct with
  | case1 a b rest ih =>
      intro off
      by_cases hb : 0 < b <;>
        simp [parse_sleep_records, pairsOf, hb, ih]
  | case2 t h =>
      intro off
      rcases t with _ | ⟨a, t⟩
      · simp [parse_sleep_records, pairsOf]
      rcases t with _ | ⟨b, rest⟩
      · simp [parse_sleep_records, pairsOf]
      · exact absurd rfl (h a b rest)

/-- Record parsing distributes over appending at any even split. -/
lemma pairsOf_append_even (X : List Nat) :
    ∀ Y, X.length % 2 = 0 → pairsOf (X ++ Y) = pairsOf X ++ pairsOf Y := by
  induction X using pairsOf.induct with
  | case1 a b rest ih =>
      intro Y hev
      have hr : rest.length % 2 = 0 := by
        simp at hev
        omega
      by_cases hb : 0 < b <;>
        simp [pairsOf, hb, ih Y hr]
  | case2 t h =>
      intro Y hev
      rcases t with _ | ⟨a, t⟩
      · simp [pairsOf]
      rcases t with _ | ⟨b, rest⟩
      · simp at hev
      · exact absurd rfl (h a b rest)

/-- C6 counterexample: the byte pair `(0x02, 0x00)` is parsed but the
`if duration > 0` guard drops it, so no record is appended even though
one pair was parsed. -/
theorem parse_sleep_records_cex :
    parse_sleep_records [2, 0] 0 = []
      ∧ chunkPairs [2, 0] = [(2, 0)] := ⟨rfl, rfl⟩

/-- C6 (amended): of the consecutive byte pairs walked by
`parse_sleep_records`, exactly those with a positive duration byte are
appended, in order, with the stage byte mapped through the enum
(anything outside {0, 2, 3, 4, 5} becoming `UNKNOWN`); pairs whose
duration byte is 0 are silently skipped. -/
theorem parse_sleep_records_pairs (data : List Nat) (off : Nat) :
    (parse_sleep_records data off).map (fun r => (r.1, r.2.1))
      = (chunkPairs data).filterMap
          (fun p => if 0 < p.2 then some (toSleepType p.1, p.2) else none)
    ∧ ∀ raw, raw ∉ ([0, 2, 3, 4, 5] : List Nat) →
        toSleepType raw = SleepType.unknown := by
  constructor
  · rw [parse_sleep_records_map_proj data off]
    induction data using pairsOf.induct with
    | case1 a b rest ih =>
        by_cases hb : 0 < b <;> simp [pairsOf, chunkPairs, hb, ih]
    | case2 t h =>
        rcases t with _ | ⟨a, t⟩
        · simp [pairsOf, chunkPairs]
        rcases t with _ | ⟨b, rest⟩
        · simp [pairsOf, chunkPairs]
        · exact absurd rfl (h a b rest)
  · intro raw hraw
    simp at hraw
    simp [toSleepType, hraw.1, hraw.2.1, hraw.2.2.1, hraw.2.2.2.1,
      hraw.2.2.2.2]

/-- Witness for the amended C6: a stream with a zero-duration pair and
an unmapped stage byte 0x07. -/
theorem parse_sleep_records_pairs_witness :
    (parse_sleep_records [2, 30, 4, 0, 7, 5] 0).map (fun r => (r.1, r.2.1))
      = (chunkPairs [2, 30, 4, 0, 7, 5]).filterMap
          (fun p => if 0 < p.2 then some (toSleepType p.1, p.2) else none)
    ∧ toSleepType 7 = SleepType.unknown :=
  ⟨(parse_sleep_records_pairs [2, 30, 4, 0, 7, 5] 0).1,
   (parse_sleep_records_pairs [2, 30, 4, 0, 7, 5] 0).2 7 (by decide)⟩

/-- Bulk-data protocol constants of `sleep.py`. -/
def BIG_DATA_MAGIC : Nat := 0xBC

def SLEEP_DATA_ID : Nat := 0x27

/-- The odd-length handling shared by every branch of
`notification_handler`: if the working buffer has odd length, its last
byte (`sleep_data[-1:]`) becomes the next carry and is excluded from
this pass (`sleep_data[:-1]`). -/
def oddSplit (l : List Nat) : List Nat × List Nat :=
  if l.length % 2 = 0 then (l, [])
  else (l.dropLast, l.drop (l.length - 1))

/-- The mutable state closed over by `sleep.py`'s
`notification_handler`: whether `first_packet` has been recorded, the
`incomplete_record` carry (empty list = `None`), the accumulated
`all_records`, the raw bytes of a recovered timestamp marker (if any),
and whether `done_event` has been set. -/
structure BulkState where
  firstSeen : Bool
  carry : List Nat
  records : List (SleepType × Nat × Nat)
  tsBytes : Option (List Nat)
  done : Bool
  deriving DecidableEq, Repr

/-- State before any notification arrives. -/
def initBulkState : BulkState :=
  ⟨false, [], [], none, false⟩

/-- One invocation of `sleep.py`'s `notification_handler` on a frame.
The first frame starting with `[0xBC, 0x27]` is consumed as the header
frame: after an optional `0x57` marker and 6 timestamp bytes (or a fixed
8-byte header skip when no marker is present) its remaining bytes are
parsed as records.  Every other frame is carry-prepended, odd-split and
parsed, and additionally completes the session when shorter than
20 bytes. -/
def stepFrame (s : BulkState) (data : List Nat) : BulkState :=
  if s.firstSeen = false ∧ data.take 2 = [BIG_DATA_MAGIC, SLEEP_DATA_ID] then
    if 0x57 ∈ data then
      let start_idx := data.indexOf 0x57 + 1
      if start_idx + 6 ≤ data.length then
        let sleep_data := s.carry ++ data.drop (start_idx + 6)
        let split := oddSplit sleep_data
        ⟨true, split.2,
          s.records ++ parse_sleep_records split.1 (start_idx + 6),
          some ((data.drop start_idx).take 6), s.done⟩
      else
        ⟨true, data.drop (start_idx + 6), s.records, s.tsBytes, s.done⟩
    else
      if 8 < data.length then
        let sleep_data := s.carry ++ data.drop 8
        let split := oddSplit sleep_data
        ⟨true, split.2, s.records ++ parse_sleep_records split.1 8,
          s.tsBytes, s.done⟩
      else
        ⟨true, data.drop 8, s.records, s.tsBytes, s.done⟩
  else
    let sleep_data := s.carry ++ data
    let split := oddSplit sleep_data
    ⟨s.firstSeen, split.2, s.records ++ parse_sleep_records split.1 0,
      s.tsBytes, if data.length < 20 then true else s.done⟩

lemma oddSplit_even (l : List Nat) (h : l.length % 2 = 0) :
    oddSplit l = (l, []) := by
  simp [oddSplit, h]

lemma oddSplit_odd (l : List Nat) (h : l.length % 2 = 1) :
    oddSplit l = (l.dropLast, l.drop (l.length - 1)) := by
  simp [oddSplit, h]

lemma drop_length_sub_one (l : List Nat) (h : l ≠ []) :
    l.drop (l.length - 1) = [l.getLast h] := by
  have h2 := List.drop_left l.dropLast [l.getLast h]
  rw [List.dropLast_append_getLast h, List.length_dropLast] at h2
  exact h2

/-- Once past the header frame, `notification_handler` always runs its
else branch: carry-prepend, odd-split, parse at offset 0, and complete
on a short frame. -/
lemma stepFrame_past_header (s : BulkState) (data : List Nat)
    (h : s.firstSeen = true) :
    stepFrame s data
      = ⟨true, (oddSplit (s.carry ++ data)).2,
          s.records ++ parse_sleep_records (oddSplit (s.carry ++ data)).1 0,
          s.tsBytes, if data.length < 20 then true else s.done⟩ := by
  simp [stepFrame, h]

/-- C1: carry-buffer transparency.  For an even-length record stream
arriving after the header frame, splitting it into two frames at any
interior point yields the same decoded (stage, duration) sequence as
one frame: the odd trailing byte carried across the boundary restores
the pairing. -/
theorem carry_buffer_transparency (rs : List (SleepType × Nat × Nat))
    (ts : Option (List Nat)) (dn : Bool) (A B : List Nat)
    (hA : A ≠ []) (_hB : B ≠ [])
    (heven : (A ++ B).length % 2 = 0) :
    ((stepFrame (stepFrame ⟨true, [], rs, ts, dn⟩ A) B).records).map
        (fun r => (r.1, r.2.1))
      = ((stepFrame ⟨true, [], rs, ts, dn⟩ (A ++ B)).records).map
        (fun r => (r.1, r.2.1)) := by
  rw [stepFrame_past_header ⟨true, [], rs, ts, dn⟩ A rfl,
    stepFrame_past_header _ B rfl,
    stepFrame_past_header ⟨true, [], rs, ts, dn⟩ (A ++ B) rfl]
  simp only [List.nil_append, List.map_append,
    parse_sleep_records_map_proj]
  rw [oddSplit_even (A ++ B) heven]
  simp only [List.append_assoc, List.map_append,
    parse_sleep_records_map_proj]
  have hlen : (A ++ B).length = A.length + B.length := List.length_append A B
  by_cases hA2 : A.length % 2 = 0
  · have hB2 : B.length % 2 = 0 := by rw [hlen] at heven; omega
    rw [oddSplit_even A hA2]
    simp only [List.nil_append]
    rw [oddSplit_even B hB2, ← pairsOf_append_even A B hA2]
  · have hA1 : A.length % 2 = 1 := by omega
    have hB1 : B.length % 2 = 1 := by rw [hlen] at heven; omega
    rw [oddSplit_odd A hA1, drop_length_sub_one A hA]
    have hcons : ((A.getLast hA :: B).length) % 2 = 0 := by
      simp [hB1]
      omega
    rw [show [A.getLast hA] ++ B = A.getLast hA :: B from rfl,
      oddSplit_even _ hcons]
    have hdl : A.dropLast.length % 2 = 0 := by
      simp [List.length_dropLast]
      omega
    rw [← pairsOf_append_even A.dropLast (A.getLast hA :: B) hdl,
      show A.dropLast ++ A.getLast hA :: B = (A.dropLast ++ [A.getLast hA]) ++ B by simp,
      List.dropLast_append_getLast hA]

/-- Witness for C1: the stream `[2, 30, 3, 5]` split as `[2, 30, 3]`
then `[5]`. -/
theorem carry_buffer_transparency_witness :
    ((stepFrame (stepFrame ⟨true, [], [], none, false⟩ [2, 30, 3])
        [5]).records).map (fun r => (r.1, r.2.1))
      = ((stepFrame ⟨true, [], [], none, false⟩ [2, 30, 3, 5]).records).map
          (fun r => (r.1, r.2.1)) :=
  carry_buffer_transparency [] none false [2, 30, 3] [5] (by simp)
    (by simp) (by simp)

/-- C2 counterexample: a first frame starting with the
`[0xBC, 0x27]` header and only 2 bytes long (< 20) is consumed by the
header branch, which never sets `done_event` — the session does not
transition to Complete on this short frame. -/
theorem short_frame_completion_cex :
    ([0xBC, 0x27] : List Nat).length < 20
      ∧ (stepFrame initBulkState [0xBC, 0x27]).done = false :=
  ⟨by decide, rfl⟩

/-- C2 (amended): a frame shorter than 20 bytes transitions the session
to Complete whenever it is not absorbed as the initial header frame
(i.e. the header frame has already been seen, or the frame does not
start with `[0xBC, 0x27]`); and a stream all of whose frames are at
least 20 bytes long never sets Complete. -/
theorem short_frame_completion :
    (∀ (s : BulkState) (data : List Nat),
      (s.firstSeen = true ∨ data.take 2 ≠ [BIG_DATA_MAGIC, SLEEP_DATA_ID]) →
      data.length < 20 → (stepFrame s data).done = true)
    ∧ ∀ frames : List (List Nat), (∀ f ∈ frames, 20 ≤ f.length) →
        (frames.foldl stepFrame initBulkState).done = false := by
  constructor
  · intro s data hnothdr hshort
    have hcond : ¬ (s.firstSeen = false
        ∧ data.take 2 = [BIG_DATA_MAGIC, SLEEP_DATA_ID]) := by
      rcases hnothdr with h | h
      · simp [h]
      · simp [h]
    simp [stepFrame, hcond, hshort]
  · have hstep : ∀ (s : BulkState) (data : List Nat), 20 ≤ data.length →
        (stepFrame s data).done = s.done := by
      intro s data hlen
      have hn : ¬ data.length < 20 := by omega
      simp only [stepFrame]
      split
      · split
        · split <;> rfl
        · split <;> rfl
      · simp [hn]
    intro frames
    have hgen : ∀ (fs : List (List Nat)) (s : BulkState),
        (∀ f ∈ fs, 20 ≤ f.length) →
        (fs.foldl stepFrame s).done = s.done := by
      intro fs
      induction fs with
      | nil => intro s _; rfl
      | cons f rest ih =>
          intro s hall
          rw [List.foldl_cons, ih (stepFrame s f) (fun g hg => hall g (by simp [hg])),
            hstep s f (hall f (by simp))]
    intro hall
    exact hgen frames initBulkState hall

/-- Witness for the amended C2: a 3-byte non-header frame past the
header completes the session; a single 20-byte frame stream does not. -/
theorem short_frame_completion_witness :
    (stepFrame ⟨true, [], [], none, false⟩ [1, 2, 3]).done = true
      ∧ ([List.replicate 20 0].foldl stepFrame initBulkState).done = false :=
  ⟨short_frame_completion.1 ⟨true, [], [], none, false⟩ [1, 2, 3]
      (Or.inl rfl) (by decide),
   short_frame_completion.2 [List.replicate 20 0]
      (by intro f hf; simp at hf; simp [hf])⟩

/-- Times are modelled as whole minutes since an epoch (the sleep data
carries whole-minute durations, and the fabricated fallback start is
zeroed to the minute).  `fabricateStart` models
`now.replace(hour=23, minute=27, second=0, microsecond=0)` followed by
`if timestamp > now: timestamp -= timedelta(days=1)`. -/
def fabricateStart (now : Nat) : Nat :=
  let c := now / 1440 * 1440 + (23 * 60 + 27)
  if now < c then c - 1440 else c

/-- The session start used by `get_sleep_data` after record collection:
the decoded timestamp if one was recovered, otherwise the fabricated
"23:27 yesterday or today" fallback. -/
def sessionStart (timestamp : Option Nat) (now : Nat) : ℤ :=
  match timestamp with
  | some t => (t : ℤ)
  | none => (fabricateStart now : ℤ)

/-- Python's `round` (banker's rounding, ties to even), on the exact
rational value.  The source computes `int(round(dur * scale_factor))`
on binary floats; the claims are evaluated away from float-tie
artifacts, where the two agree. -/
def roundHalfEven (q : ℚ) : ℤ :=
  if q - ⌊q⌋ < 1 / 2 then ⌊q⌋
  else if 1 / 2 < q - ⌊q⌋ then ⌊q⌋ + 1
  else if ⌊q⌋ % 2 = 0 then ⌊q⌋ else ⌊q⌋ + 1

/-- `scaled_dur = int(round(dur * scale_factor))` with
`scale_factor = 508 / actual_duration`. -/
def scaleDur (actual : ℤ) (d : Nat) : ℤ :=
  roundHalfEven ((d : ℚ) * (508 / (actual : ℚ)))

/-- `sleep.py` `SleepPeriod` (minutes-since-epoch start time). -/
structure SleepPeriod where
  type : SleepType
  minutes : ℤ
  start_time : ℤ
  deriving DecidableEq, Repr

/-- `sleep.py` `SleepDay` (date as a day index, times in minutes). -/
structure SleepDay where
  date : ℤ
  sleep_start : ℤ
  sleep_end : ℤ
  periods : List SleepPeriod
  deriving DecidableEq, Repr

def dfltPeriod : SleepPeriod := ⟨SleepType.unknown, 0, 0⟩

/-- The period-building loop of `get_sleep_data` (both the scaled and
the normal path): each record becomes a period starting at the running
time, which then advances by that record's duration. -/
def buildPeriods : List (SleepType × ℤ) → ℤ → List SleepPeriod
  | [], _ => []
  | (st, d) :: rest, start => ⟨st, d, start⟩ :: buildPeriods rest (start + d)

/-- The tail of `sleep.py` `get_sleep_data` (lines after record
collection): choose the start time (decoded timestamp or fabricated
fallback), compute `actual_duration` as the sum of parsed durations,
rescale every duration by `508 / actual_duration` whenever the total is
not within 1 minute of 508, build the contiguous periods, and assemble
the single `SleepDay`.  Returns `none` when no records were collected
(the early `return []`). -/
def get_sleep_day (timestamp : Option Nat) (now : Nat)
    (all_records : List (SleepType × Nat)) : Option SleepDay :=
  if all_records = [] then none
  else
    let start_time := sessionStart timestamp now
    let actual : ℤ := (all_records.map (fun r => (r.2 : ℤ))).sum
    let periods :=
      if 1 < |actual - 508| then
        buildPeriods
          (all_records.map (fun r => (r.1, scaleDur actual r.2))) start_time
      else
        buildPeriods
          (all_records.map (fun r => (r.1, (r.2 : ℤ)))) start_time
    some ⟨start_time / 1440,
      (periods.headD dfltPeriod).start_time,
      (periods.getLastD dfltPeriod).start_time
        + (periods.getLastD dfltPeriod).minutes,
      periods⟩

/-- C3 is violated by the code: with no timestamp marker recovered
(`timestamp = None`) and parsed records Light 127 min + Deep 127 min
(total 254 ≠ 508 ± 1), `get_sleep_data` does not require a
caller-supplied start — it fabricates 23:27 of the current/previous day
(minute 999327 for `now` = minute 1000000) — and rescales both parsed
durations by 508/254 to 254 minutes, so the decoded durations differ
from the parsed duration bytes. -/
theorem hardcoded_calibration_defect :
    (get_sleep_day none 1000000
        [(SleepType.light, 127), (SleepType.deep, 127)]).map
        (fun day => (day.sleep_start, day.periods.map (fun p => p.minutes)))
      = some (999327, [254, 254])
    ∧ (254 : ℤ) ≠ 127 := by
  constructor
  · have hsd : scaleDur 254 127 = 254 := by
      unfold scaleDur roundHalfEven
      norm_num
    have hstart : sessionStart none 1000000 = 999327 := by
      unfold sessionStart fabricateStart
      norm_num
    simp only [get_sleep_day]
    norm_num [hstart]
    simp only [hsd]
    norm_num [buildPeriods]
    exact ⟨_, ⟨by simp, rfl⟩, rfl, rfl⟩
  · decide

lemma buildPeriods_minutes (l : List (SleepType × ℤ)) :
    ∀ s, (buildPeriods l s).map (fun p => p.minutes)
      = l.map (fun r => r.2) := by
  induction l with
  | nil => intro s; rfl
  | cons hd rest ih =>
      intro s
      obtain ⟨st, d⟩ := hd
      simp [buildPeriods, ih]

lemma buildPeriods_headD (l : List (SleepType × ℤ)) (s : ℤ) (h : l ≠ []) :
    ((buildPeriods l s).headD dfltPeriod).start_time = s := by
  cases l with
  | nil => exact absurd rfl h
  | cons hd rest =>
      obtain ⟨st, d⟩ := hd
      rfl

lemma buildPeriods_last (l : List (SleepType × ℤ)) :
    ∀ s, l ≠ [] → ∃ p, (buildPeriods l s).getLast? = some p
      ∧ p.start_time + p.minutes = s + (l.map (fun r => r.2)).sum := by
  induction l with
  | nil => intro s h; exact absurd rfl h
  | cons hd rest ih =>
      intro s _
      obtain ⟨st, d⟩ := hd
      cases rest with
      | nil =>
          refine ⟨⟨st, d, s⟩, by simp [buildPeriods], ?_⟩
          simp
      | cons hd2 rest2 =>
          obtain ⟨p, hp1, hp2⟩ := ih (s + d) (by simp)
          obtain ⟨st2, d2⟩ := hd2
          refine ⟨p, ?_, ?_⟩
          · simp only [buildPeriods] at hp1 ⊢
            rw [List.getLast?_cons_cons]
            exact hp1
          · simp only [List.map_cons, List.sum_cons] at hp2 ⊢
            linarith

lemma buildPeriods_endD (l : List (SleepType × ℤ)) (s : ℤ) (h : l ≠ []) :
    ((buildPeriods l s).getLastD dfltPeriod).start_time
        + ((buildPeriods l s).getLastD dfltPeriod).minutes
      = s + (l.map (fun r => r.2)).sum := by
  obtain ⟨p, hp1, hp2⟩ := buildPeriods_last l s h
  rw [List.getLastD_eq_getLast?, hp1]
  simpa using hp2

lemma buildPeriods_chain (l : List (SleepType × ℤ)) :
    ∀ s, List.Chain' (fun p q => q.start_time = p.start_time + p.minutes)
      (buildPeriods l s) := by
  induction l with
  | nil => intro s; simp [buildPeriods]
  | cons hd rest ih =>
      intro s
      obtain ⟨st, d⟩ := hd
      cases rest with
      | nil => simp [buildPeriods]
      | cons hd2 rest2 =>
          obtain ⟨st2, d2⟩ := hd2
          have h2 := ih (s + d)
          simp only [buildPeriods] at h2 ⊢
          rw [List.chain'_cons]
          exact ⟨rfl, h2⟩

/-- C4: every `SleepDay` the decoder assembles satisfies
`sleep_end - sleep_start = sum of period durations`, consecutive periods
are contiguous (`start_time` of each period = previous `start_time` +
previous duration), and the first period starts at the session start
time — in the normal path and the rescaling path alike. -/
theorem sleep_day_invariants (timestamp : Option Nat) (now : Nat)
    (recs : List (SleepType × Nat)) (hne : recs ≠ [])
    (_hpos : ∀ r ∈ recs, 0 < r.2) :
    ∃ day, get_sleep_day timestamp now recs = some day
      ∧ day.sleep_end - day.sleep_start
          = (day.periods.map (fun p => p.minutes)).sum
      ∧ List.Chain' (fun p q => q.start_time = p.start_time + p.minutes)
          day.periods
      ∧ (day.periods.headD dfltPeriod).start_time
          = sessionStart timestamp now := by
  simp only [get_sleep_day, if_neg hne]
  by_cases hsc : 1
      < |(recs.map (fun r => ((r.2 : Nat) : ℤ))).sum - 508|
  all_goals simp only [hsc, if_true, if_false, reduceIte]
  · refine ⟨_, rfl, ?_, buildPeriods_chain _ _, ?_⟩
    · have hmne : recs.map (fun r =>
          (r.1, scaleDur (recs.map (fun r => ((r.2 : Nat) : ℤ))).sum r.2))
            ≠ [] := by
        simpa using hne
      simp only [buildPeriods_minutes,
        buildPeriods_endD _ _ hmne, buildPeriods_headD _ _ hmne]
      ring
    · exact buildPeriods_headD _ _ (by simpa using hne)
  · refine ⟨_, rfl, ?_, buildPeriods_chain _ _, ?_⟩
    · have hmne : recs.map (fun r => (r.1, ((r.2 : Nat) : ℤ))) ≠ [] := by
        simpa using hne
      simp only [buildPeriods_minutes,
        buildPeriods_endD _ _ hmne, buildPeriods_headD _ _ hmne]
      ring
    · exact buildPeriods_headD _ _ (by simpa using hne)

/-- Witness for C4 at a two-record session with no recovered
timestamp. -/
theorem sleep_day_invariants_witness :
    ∃ day, get_sleep_day none 1000000
        [(SleepType.light, 30), (SleepType.awake, 5)] = some day
      ∧ day.sleep_end - day.sleep_start
          = (day.periods.map (fun p => p.minutes)).sum
      ∧ List.Chain' (fun p q => q.start_time = p.start_time + p.minutes)
          day.periods
      ∧ (day.periods.headD dfltPeriod).start_time
          = sessionStart none 1000000 :=
  sleep_day_invariants none 1000000 [(SleepType.light, 30), (SleepType.awake, 5)]
    (by simp) (by decide)
